import Mathlib

/-!
Shallow embedding of the admin-revoker tool from cmd/admin-revoker/main.go.

External collaborators (the RA gRPC client, the SA gRPC client, the database,
the OS user lookup, the clock, the filesystem and the cryptographic
primitives) are modelled as an explicit environment of pure response
functions, and every interaction with a collaborator is recorded in an
effect trace.  Each Go function becomes a Lean function returning an
`Outcome` (normal value, error return, Go panic, or `cmd.Fail` process exit)
paired with the list of effects it performed, in order.  The goroutine pool
of `revokeBySerialBatch` is sequentialised: the observable properties proved
about it (return value and per-item fault isolation) are independent of the
interleaving of workers.
-/

namespace AdminRevoker

/-- Errors returned by the Go functions (the `error` interface), with a
structured constructor per distinct error produced in main.go. -/
inductive GoErr where
  /-- berrors.NotFoundError -/
  | notFound (msg : String)
  /-- fmt.Errorf("invalid reason code %d, must be 1 (Key Compromise)") -/
  | invalidReasonMustBe1 (code : Int)
  /-- errors.New("does not contain a PEM formatted block") -/
  | noPEMBlock
  /-- errors.New("cannot parse a private key from the provided PEM file") -/
  | cannotParseKey
  /-- fmt.Errorf("failed to revoke serial %q. Entry %d of %d affected certificates: %s") -/
  | entryFailed (serial : String) (ordinal total : Nat) (inner : GoErr)
  /-- fmt.Errorf("<some message>: %s", inner) wrapping -/
  | wrapped (msg : String) (inner : GoErr)
  /-- any other error value coming back from a collaborator -/
  | raw (msg : String)
deriving DecidableEq, Repr

/-- Outcome of running a Go function: a normal return value, an error
return, a runtime panic, or a process exit through `cmd.Fail`. -/
inductive Outcome (α : Type) where
  | ok (a : α)
  | err (e : GoErr)
  | panic (msg : String)
  | fail (msg : String)
deriving DecidableEq, Repr

/-- Result of a database lookup: a row, gorp's no-rows error (recognised by
`db.IsNoRows`), or any other database error. -/
inductive DbResult (α : Type) where
  | found (a : α)
  | noRows
  | dbErr (e : GoErr)
deriving DecidableEq, Repr

/-- An abstract public key (the `crypto.PublicKey` passed around). -/
structure PubKey where
  id : Nat
deriving DecidableEq, Repr

/-- An abstract private key with its embedded public half
(the `crypto.Signer` passed around). -/
structure PrivKey where
  pub : PubKey
  id : Nat
deriving DecidableEq, Repr

/-- Result of `user.Current()`: the acting operator.  `username` is the
`u.Username` field; `render` is what `fmt.Sprintf("%s", u)` prints for the
`*user.User` value. -/
structure User where
  username : String
  render : String
deriving DecidableEq, Repr

/-- core.Certificate as used here: optional DER bytes plus the serial. -/
structure Certificate where
  der : Option (List Nat)
  serial : String
deriving DecidableEq, Repr

/-- rapb.AdministrativelyRevokeCertificateRequest. -/
structure RevokeReq where
  cert : Option (List Nat)
  serial : Option String
  code : Int
  adminName : String
  skipBlockKey : Bool
deriving DecidableEq, Repr

/-- sapb.AddBlockedKeyRequest. -/
structure BlockedKeyReq where
  keyHash : List Nat
  added : Int
  source : String
  comment : String
  revokedBy : Int
deriving DecidableEq, Repr

/-- A private key parsed out of a PKCS #8 container: Go's
`x509.ParsePKCS8PrivateKey` can return an RSA key, an ECDSA key, or some
other key type (e.g. Ed25519) that the switch in `loadPrivateKey` does not
accept. -/
inductive PKCS8Key where
  | rsa (k : PrivKey)
  | ecdsa (k : PrivKey)
  | other
deriving DecidableEq, Repr

/-- The `crypto.Signer` returned by `loadPrivateKey`: an RSA or ECDSA
private key. -/
inductive Signer where
  | rsa (k : PrivKey)
  | ec (k : PrivKey)
deriving DecidableEq, Repr

/-- A decoded PEM block (`pem.Block`): only its `Bytes` field is used. -/
structure PemBlock where
  bytes : List Nat
deriving DecidableEq, Repr

/-- Pure cryptographic and codec primitives from the standard library,
modelled as an abstract structure of functions: the claims depend on how
main.go composes them, not on their internals. -/
structure Crypto where
  /-- x509.MarshalPKIXPublicKey: DER-encoded SubjectPublicKeyInfo, or an
  error for an unsupported key type. -/
  marshalPKIXPublicKey : PubKey → Except GoErr (List Nat)
  /-- sha256.Sum256 over a byte string. -/
  sha256 : List Nat → List Nat
  /-- pem.Decode: the first PEM block and the rest of the input, or none
  when no PEM block can be decoded. -/
  pemDecode : List Nat → Option (PemBlock × List Nat)
  /-- x509.ParsePKCS1PrivateKey (RSA only). -/
  parsePKCS1 : List Nat → Option PrivKey
  /-- x509.ParsePKCS8PrivateKey. -/
  parsePKCS8 : List Nat → Option PKCS8Key
  /-- x509.ParseECPrivateKey (SEC 1, ECDSA only). -/
  parseEC : List Nat → Option PrivKey

/-- One recorded interaction with a collaborator. -/
inductive Effect where
  /-- verifyPrivateKey was invoked on this key -/
  | verifyKey (k : PrivKey)
  /-- getPublicKeySPKIHash was invoked on this public key -/
  | fingerprint (p : PubKey)
  /-- user.Current() was invoked -/
  | userLookup
  /-- rac.AdministrativelyRevokeCertificate was invoked -/
  | raRevoke (req : RevokeReq)
  /-- sac.AddBlockedKey was invoked -/
  | addBlockedKey (req : BlockedKeyReq)
  /-- sa.SelectPrecertificate was invoked for this serial -/
  | selectPrecert (serial : String)
  /-- SELECT COUNT from blockedKeys WHERE keyHash = ? -/
  | queryBlockedCount (h : List Nat)
  /-- SELECT COUNT from keyHashToSerial WHERE keyHash = ? -/
  | queryCertCount (h : List Nat)
  /-- SELECT certSerial FROM keyHashToSerial WHERE keyHash = ? -/
  | queryCertsMatching (h : List Nat)
  /-- os.Open on this path -/
  | openFile (path : String)
  /-- log.Infof -/
  | logInfo (s : String)
  /-- log.Errf -/
  | logErr (s : String)
  /-- log.AuditInfo / log.AuditInfof -/
  | auditInfo (s : String)
deriving DecidableEq, Repr

/-- An effect mutates external state exactly when it is a revocation call
to the RA or a blocked-key insert at the SA; every other interaction is a
read, a log line, or a local computation. -/
def Effect.isMutation : Effect → Bool
  | .raRevoke _ => true
  | .addBlockedKey _ => true
  | _ => false

/-- The environment of collaborator responses: each field gives the
response of the external system to a request, as a pure function. -/
structure Env where
  crypto : Crypto
  /-- user.Current() -/
  userCurrent : Except GoErr User
  /-- r.clk.Now().UnixNano() -/
  clkNow : Int
  /-- x509.ParseCertificate on the stored DER; returns cert.Raw -/
  parseCert : List Nat → Except GoErr (List Nat)
  /-- response of rac.AdministrativelyRevokeCertificate -/
  raRevoke : RevokeReq → Except GoErr Unit
  /-- sa.SelectPrecertificate -/
  selectPrecertificate : String → DbResult Certificate
  /-- response of sac.AddBlockedKey -/
  addBlockedKey : BlockedKeyReq → Except GoErr Unit
  /-- SELECT COUNT(*) FROM blockedKeys WHERE keyHash = ? -/
  selectBlockedKeyCount : List Nat → Except GoErr Int
  /-- SELECT COUNT(*) FROM keyHashToSerial WHERE keyHash = ? -/
  selectKeyHashSerialCount : List Nat → Except GoErr Int
  /-- SELECT certSerial FROM keyHashToSerial WHERE keyHash = ? -/
  selectSerialsByKeyHash : List Nat → DbResult (List String)
  /-- result of the sign/verify round trip in verifyPrivateKey -/
  verifyPrivateKey : PrivKey → Except GoErr Unit
  /-- os.Open followed by line scanning: the lines of the file -/
  openFile : String → Except GoErr (List String)

/-- revocation.ReasonToString, used only to format the audit log line. -/
def reasonToString : Int → String
  | 0 => "unspecified"
  | 1 => "keyCompromise"
  | 2 => "cACompromise"
  | 3 => "affiliationChanged"
  | 4 => "superseded"
  | 5 => "cessationOfOperation"
  | 6 => "certificateHold"
  | 8 => "removeFromCRL"
  | 9 => "privilegeWithdrawn"
  | 10 => "aACompromise"
  | _ => ""

/-- getPublicKeySPKIHash: SHA-256 of the DER-encoded SubjectPublicKeyInfo
of the provided public key; marshalling failure is the only error path. -/
def getPublicKeySPKIHash (C : Crypto) (pubKey : PubKey) : Except GoErr (List Nat) :=
  match C.marshalPKIXPublicKey pubKey with
  | .error e => .error e
  | .ok rawSubjectPublicKeyInfo => .ok (C.sha256 rawSubjectPublicKeyInfo)

/-- loadPrivateKey: decode the first PEM block and attempt, in order,
PKCS #1 (RSA), PKCS #8 (accepting only RSA or ECDSA results), and SEC 1
(ECDSA) parsing, returning the first success. -/
def loadPrivateKey (C : Crypto) (keyContents : List Nat) : Except GoErr Signer :=
  match C.pemDecode keyContents with
  | none => .error .noPEMBlock
  | some (block, _) =>
    match C.parsePKCS1 block.bytes with
    | some rsaKey => .ok (.rsa rsaKey)
    | none =>
      match C.parsePKCS8 block.bytes with
      | some (.rsa k) => .ok (.rsa k)
      | some (.ecdsa k) => .ok (.ec k)
      | _ =>
        match C.parseEC block.bytes with
        | some ecdsaKey => .ok (.ec ecdsaKey)
        | none => .error .cannotParseKey

/-- revokeCertificate: panic on a reason code outside [0,10] or equal to 7,
then resolve the operator, build the revocation request from the DER bytes
when present (falling back to the bare serial), and call the RA. -/
def revokeCertificate (env : Env) (certObj : Certificate) (reasonCode : Int)
    (skipBlockKey : Bool) : Outcome Unit × List Effect :=
  if reasonCode < 0 ∨ reasonCode = 7 ∨ reasonCode > 10 then
    (.panic ("Invalid reason code: " ++ toString reasonCode), [])
  else
    match env.userCurrent with
    | .error e => (.err e, [.userLookup])
    | .ok u =>
      match certObj.der with
      | some der =>
        match env.parseCert der with
        | .error e => (.err e, [.userLookup])
        | .ok raw =>
          let req : RevokeReq :=
            { cert := some raw, serial := none, code := reasonCode,
              adminName := u.username, skipBlockKey := skipBlockKey }
          match env.raRevoke req with
          | .error e => (.err e, [.userLookup, .raRevoke req])
          | .ok _ =>
            (.ok (), [.userLookup, .raRevoke req,
              .logInfo ("Revoked certificate " ++ certObj.serial ++ " with reason "
                ++ reasonToString reasonCode)])
      | none =>
        let req : RevokeReq :=
          { cert := none, serial := some certObj.serial, code := reasonCode,
            adminName := u.username, skipBlockKey := skipBlockKey }
        match env.raRevoke req with
        | .error e => (.err e, [.userLookup, .raRevoke req])
        | .ok _ =>
          (.ok (), [.userLookup, .raRevoke req,
            .logInfo ("Revoked certificate " ++ certObj.serial ++ " with reason "
              ++ reasonToString reasonCode)])

/-- revokeBySerial: look up the precertificate by serial (a no-rows result
becomes a distinct not-found error), then delegate to revokeCertificate. -/
def revokeBySerial (env : Env) (serial : String) (reasonCode : Int)
    (skipBlockKey : Bool) : Outcome Unit × List Effect :=
  match env.selectPrecertificate serial with
  | .noRows =>
    (.err (.notFound ("precertificate with serial " ++ serial ++ " not found")),
     [.selectPrecert serial])
  | .dbErr e => (.err e, [.selectPrecert serial])
  | .found certObj =>
    let r := revokeCertificate env certObj reasonCode skipBlockKey
    (r.1, .selectPrecert serial :: r.2)

/-- Body of the batch worker loop of revokeBySerialBatch, sequentialised:
blank lines are skipped, a per-item error is logged and the loop continues,
a panic or process exit propagates. -/
def runBatchItems (env : Env) (reasonCode : Int) :
    List String → Outcome Unit × List Effect
  | [] => (.ok (), [])
  | serial :: rest =>
    if serial = "" then runBatchItems env reasonCode rest
    else
      let r := revokeBySerial env serial reasonCode false
      match r.1 with
      | .ok _ =>
        let r2 := runBatchItems env reasonCode rest
        (r2.1, r.2 ++ r2.2)
      | .err _ =>
        let r2 := runBatchItems env reasonCode rest
        (r2.1, r.2 ++ [.logErr ("failed to revoke " ++ serial)] ++ r2.2)
      | .panic m => (.panic m, r.2)
      | .fail m => (.fail m, r.2)

/-- revokeBySerialBatch: open the serial file (the only error return),
fan the non-blank lines out to the workers, and return nil once every
enqueued item has been processed.  `parallelism` sizes the worker pool and
does not affect the return value. -/
def revokeBySerialBatch (env : Env) (serialPath : String) (reasonCode : Int)
    (_parallelism : Nat) : Outcome Unit × List Effect :=
  match env.openFile serialPath with
  | .error e => (.err e, [.openFile serialPath])
  | .ok lines =>
    let r := runBatchItems env reasonCode lines
    match r.1 with
    | .ok _ => (.ok (), .openFile serialPath :: r.2)
    | .err e => (.err e, .openFile serialPath :: r.2)
    | .panic m => (.panic m, .openFile serialPath :: r.2)
    | .fail m => (.fail m, .openFile serialPath :: r.2)

/-- spkiHashInBlockedKeys: COUNT(*) over blockedKeys for the hash; true
exactly when the count is positive. -/
def spkiHashInBlockedKeys (env : Env) (spkiHash : List Nat) :
    Except GoErr Bool × List Effect :=
  match env.selectBlockedKeyCount spkiHash with
  | .error e => (.error e, [.queryBlockedCount spkiHash])
  | .ok count => (.ok (decide (count > 0)), [.queryBlockedCount spkiHash])

/-- countCertsMatchingSPKIHash: COUNT(*) over keyHashToSerial. -/
def countCertsMatchingSPKIHash (env : Env) (spkiHash : List Nat) :
    Except GoErr Int × List Effect :=
  match env.selectKeyHashSerialCount spkiHash with
  | .error e => (.error e, [.queryCertCount spkiHash])
  | .ok count => (.ok count, [.queryCertCount spkiHash])

/-- getCertsMatchingSPKIHash: the serials whose key hash matches; a no-rows
result becomes a distinct not-found error. -/
def getCertsMatchingSPKIHash (env : Env) (spkiHash : List Nat) :
    Except GoErr (List String) × List Effect :=
  match env.selectSerialsByKeyHash spkiHash with
  | .noRows =>
    (.error (.notFound "no certificates with a matching SPKI hash were found"),
     [.queryCertsMatching spkiHash])
  | .dbErr e => (.error e, [.queryCertsMatching spkiHash])
  | .found h => (.ok h, [.queryCertsMatching spkiHash])

/-- blockByPrivateKey: require reason code 1, verify the key pair, compute
the SPKI hash, resolve the operator, and insert one BlockedKeyEntry with
the fixed source label, the "blocked by" comment, and revoked-by 0.  It
revokes no certificate. -/
def blockByPrivateKey (env : Env) (privateKey : PrivKey) (reasonCode : Int) :
    Outcome Unit × List Effect :=
  if reasonCode ≠ 1 then (.err (.invalidReasonMustBe1 reasonCode), [])
  else
    match env.verifyPrivateKey privateKey with
    | .error e => (.err e, [.verifyKey privateKey])
    | .ok _ =>
      match getPublicKeySPKIHash env.crypto privateKey.pub with
      | .error e => (.err e, [.verifyKey privateKey, .fingerprint privateKey.pub])
      | .ok spkiHash =>
        match env.userCurrent with
        | .error e =>
          (.err e, [.verifyKey privateKey, .fingerprint privateKey.pub, .userLookup])
        | .ok u =>
          let req : BlockedKeyReq :=
            { keyHash := spkiHash, added := env.clkNow, source := "admin-revoker",
              comment := "blocked by " ++ u.render, revokedBy := 0 }
          match env.addBlockedKey req with
          | .error e =>
            (.err e, [.verifyKey privateKey, .fingerprint privateKey.pub,
              .userLookup, .addBlockedKey req])
          | .ok _ =>
            (.ok (), [.verifyKey privateKey, .fingerprint privateKey.pub,
              .userLookup, .addBlockedKey req])

/-- The indexed loop over the matched serials in revokeByPrivateKey: each
serial is revoked with skipBlockKey set; the first failure aborts the loop
with an error naming the failing entry's ordinal out of the total. -/
def revokeMatchesLoop (env : Env) (reasonCode : Int) (total : Nat) :
    Nat → List String → Outcome Unit × List Effect
  | _, [] => (.ok (), [])
  | i, m :: rest =>
    let r := revokeBySerial env m reasonCode true
    match r.1 with
    | .ok _ =>
      let r2 := revokeMatchesLoop env reasonCode total (i + 1) rest
      (r2.1, r.2 ++ r2.2)
    | .err e => (.err (.entryFailed m (i + 1) total e), r.2)
    | .panic msg => (.panic msg, r.2)
    | .fail msg => (.fail msg, r.2)

/-- revokeByPrivateKey: require reason code 1, verify the key pair, compute
the SPKI hash, fetch the matching serials, and revoke each with
skipBlockKey set; never inserts a blocked-key entry itself. -/
def revokeByPrivateKey (env : Env) (privateKey : PrivKey) (reasonCode : Int) :
    Outcome Unit × List Effect :=
  if reasonCode ≠ 1 then (.err (.invalidReasonMustBe1 reasonCode), [])
  else
    match env.verifyPrivateKey privateKey with
    | .error e => (.err e, [.verifyKey privateKey])
    | .ok _ =>
      match getPublicKeySPKIHash env.crypto privateKey.pub with
      | .error e => (.err e, [.verifyKey privateKey, .fingerprint privateKey.pub])
      | .ok spkiHash =>
        let g := getCertsMatchingSPKIHash env spkiHash
        match g.1 with
        | .error e =>
          (.err e, [.verifyKey privateKey, .fingerprint privateKey.pub] ++ g.2)
        | .ok matched =>
          let r := revokeMatchesLoop env reasonCode matched.length 0 matched
          (r.1, [.verifyKey privateKey, .fingerprint privateKey.pub] ++ g.2 ++ r.2)

/-- privateKeyBlock: in dry-run mode, refuse with a hard `cmd.Fail` stop
when the hash is already blocked and otherwise only report the would-be
count; in live mode, delegate to blockByPrivateKey. -/
def privateKeyBlock (env : Env) (dryRun : Bool) (count : Int)
    (spkiHash : List Nat) (privateKey : PrivKey) : Outcome Unit × List Effect :=
  let reasonCode : Int := 1
  if dryRun then
    let q := spkiHashInBlockedKeys env spkiHash
    match q.1 with
    | .error e =>
      (.err (.wrapped "while checking if the provided key already exists in the blockedKeys table" e),
       q.2)
    | .ok keyExists =>
      if keyExists then
        (.fail "The provided key already exists in the blockedKeys table", q.2)
      else
        (.ok (), q.2 ++
          [.auditInfo ("To block issuance for this key and revoke " ++ toString count
            ++ " certificates via bad-key-revoker, run with -dry-run=false"),
           .auditInfo "No keys were blocked or certificates revoked, exiting..."])
  else
    let b := blockByPrivateKey env privateKey reasonCode
    match b.1 with
    | .err e =>
      (.err (.wrapped "while attempting to block issuance for the provided key" e),
       .auditInfo "Attempting to block issuance for the provided key" :: b.2)
    | .ok _ =>
      (.ok (), .auditInfo "Attempting to block issuance for the provided key" :: b.2 ++
        [.auditInfo "Issuance for the provided key has been successfully blocked, exiting..."])
    | .panic m =>
      (.panic m, .auditInfo "Attempting to block issuance for the provided key" :: b.2)
    | .fail m =>
      (.fail m, .auditInfo "Attempting to block issuance for the provided key" :: b.2)

/-- privateKeyRevoke: in dry-run mode only report the would-be count; in
live mode act only when count >= 1, revoking first and blocking second,
aborting without blocking when the revoke step fails. -/
def privateKeyRevoke (env : Env) (dryRun : Bool) (count : Int)
    (privateKey : PrivKey) : Outcome Unit × List Effect :=
  let reasonCode : Int := 1
  if dryRun then
    (.ok (),
     [.auditInfo ("To immediately revoke " ++ toString count
        ++ " certificates and block issuance for this key, run with -dry-run=false"),
      .auditInfo "No keys were blocked or certificates revoked, exiting..."])
  else
    if count ≥ 1 then
      let pre : List Effect :=
        [.auditInfo ("Attempting to revoke " ++ toString count ++ " certificates")]
      let r := revokeByPrivateKey env privateKey reasonCode
      match r.1 with
      | .err e =>
        (.err (.wrapped "while attempting to revoke certificates for the provided key" e),
         pre ++ r.2)
      | .panic m => (.panic m, pre ++ r.2)
      | .fail m => (.fail m, pre ++ r.2)
      | .ok _ =>
        let mid : List Effect :=
          [.auditInfo "All certificates matching using the provided key have been successfully",
           .auditInfo "Attempting to block issuance for the provided key"]
        let b := blockByPrivateKey env privateKey reasonCode
        match b.1 with
        | .err e =>
          (.err (.wrapped "while attempting to block issuance for the provided key" e),
           pre ++ r.2 ++ mid ++ b.2)
        | .panic m => (.panic m, pre ++ r.2 ++ mid ++ b.2)
        | .fail m => (.fail m, pre ++ r.2 ++ mid ++ b.2)
        | .ok _ =>
          (.ok (), pre ++ r.2 ++ mid ++ b.2 ++
            [.auditInfo "All certificates have been successfully revoked and issuance blocked, exiting..."])
    else (.ok (), [])

/-- Rendering of a GoErr as the string `err.Error()` would produce. -/
def GoErr.message : GoErr → String
  | .notFound m => m
  | .invalidReasonMustBe1 c =>
    "invalid reason code " ++ toString c ++ ", must be 1 (Key Compromise)"
  | .noPEMBlock => "does not contain a PEM formatted block"
  | .cannotParseKey => "cannot parse a private key from the provided PEM file"
  | .entryFailed s i n inner =>
    "failed to revoke serial " ++ s ++ ". Entry " ++ toString i ++ " of "
      ++ toString n ++ " affected certificates: " ++ inner.message
  | .wrapped m inner => m ++ ": " ++ inner.message
  | .raw m => m

/-- Calling `err.Error()` on a possibly-nil Go error value: on a nil
interface value the method call is a nil-pointer-dereference runtime
panic. -/
def errDotError : Option GoErr → Outcome String
  | none => .panic "runtime error: invalid memory address or nil pointer dereference"
  | some e => .ok e.message

/-- The tail of main's private-key command branch (after the key has been
loaded, verified, fingerprinted and the matching certificates counted):
run the workflow function, then unconditionally call
`cmd.Fail(err.Error())` on its result. -/
def mainPrivateKeyCommand (env : Env) (command : String) (dryRun : Bool)
    (count : Int) (spkiHash : List Nat) (privateKey : PrivKey) :
    Outcome Unit × List Effect :=
  if command = "private-key-block" then
    let w := privateKeyBlock env dryRun count spkiHash privateKey
    match w.1 with
    | .ok _ => (.panic "runtime error: invalid memory address or nil pointer dereference", w.2)
    | .err e => (.fail e.message, w.2)
    | .panic m => (.panic m, w.2)
    | .fail m => (.fail m, w.2)
  else if command = "private-key-revoke" then
    let w := privateKeyRevoke env dryRun count privateKey
    match w.1 with
    | .ok _ => (.panic "runtime error: invalid memory address or nil pointer dereference", w.2)
    | .err e => (.fail e.message, w.2)
    | .panic m => (.panic m, w.2)
    | .fail m => (.fail m, w.2)
  else (.ok (), [])

/-- True on the blocked-key insert effect only. -/
def Effect.isAddBlockedKey : Effect → Bool
  | .addBlockedKey _ => true
  | _ => false

/-- True on the RA revocation effect only. -/
def Effect.isRaRevoke : Effect → Bool
  | .raRevoke _ => true
  | _ => false

/-- An outcome that returned to the caller (normally or with an error),
as opposed to a panic or a process exit. -/
def Outcome.normal {α : Type} : Outcome α → Bool
  | .ok _ => true
  | .err _ => true
  | _ => false

/-- Effect trace of one batch item: the trace of its revokeBySerial call,
followed by the error log line when that call failed. -/
def batchItemTrace (env : Env) (reasonCode : Int) (serial : String) : List Effect :=
  if serial = "" then []
  else
    (revokeBySerial env serial reasonCode false).2 ++
      (match (revokeBySerial env serial reasonCode false).1 with
       | .err _ => [.logErr ("failed to revoke " ++ serial)]
       | _ => [])

/-- Effect trace of one item of the revokeByPrivateKey loop. -/
def revokeItemTrace (env : Env) (serial : String) : List Effect :=
  (revokeBySerial env serial 1 true).2

/-- Effects of revokeByPrivateKey before the per-serial loop starts. -/
def keyRevokeHeader (k : PrivKey) (h : List Nat) : List Effect :=
  [.verifyKey k, .fingerprint k.pub, .queryCertsMatching h]

/-- A concrete set of primitives used to exercise the model on closed
inputs. -/
def testCrypto : Crypto where
  marshalPKIXPublicKey := fun p => .ok [p.id]
  sha256 := fun bs => 99 :: bs
  pemDecode := fun bs => if bs = [] then none else some (⟨bs⟩, [])
  parsePKCS1 := fun bs => if bs = [1] then some ⟨⟨10⟩, 1⟩ else none
  parsePKCS8 := fun bs =>
    if bs = [2] then some (.rsa ⟨⟨20⟩, 2⟩)
    else if bs = [3] then some (.ecdsa ⟨⟨30⟩, 3⟩)
    else if bs = [4] then some .other
    else none
  parseEC := fun bs => if bs = [4] ∨ bs = [5] then some ⟨⟨50⟩, 5⟩ else none

/-- A concrete environment used to exercise the model on closed inputs:
the serial "missing" is absent from the precertificate table, the serial
"radown" makes the RA call fail, and key hash [99, 7] is already in the
blockedKeys table. -/
def testEnv : Env where
  crypto := testCrypto
  userCurrent := .ok ⟨"alice", "alice-struct"⟩
  clkNow := 1000
  parseCert := fun der => .ok der
  raRevoke := fun req => if req.serial = some "radown" then .error (.raw "ra down") else .ok ()
  selectPrecertificate := fun s => if s = "missing" then .noRows else .found ⟨none, s⟩
  addBlockedKey := fun _ => .ok ()
  selectBlockedKeyCount := fun h => if h = [99, 7] then .ok 1 else .ok 0
  selectKeyHashSerialCount := fun _ => .ok 2
  selectSerialsByKeyHash := fun h => if h = [] then .noRows else .found ["s1", "s2"]
  verifyPrivateKey := fun _ => .ok ()
  openFile := fun p => if p = "nope" then .error (.raw "open failed") else .ok ["s1", "", "missing", "s2"]

theorem revokeCertificate_no_blockKey (env : Env) (certObj : Certificate)
    (reasonCode : Int) (skipBlockKey : Bool) :
    ∀ e ∈ (revokeCertificate env certObj reasonCode skipBlockKey).2,
      e.isAddBlockedKey = false := by
  simp only [revokeCertificate]
  repeat' split
  all_goals simp [List.forall_mem_cons, Effect.isAddBlockedKey]

theorem revokeCertificate_skip (env : Env) (certObj : Certificate)
    (reasonCode : Int) (skipBlockKey : Bool) :
    ∀ req, Effect.raRevoke req ∈ (revokeCertificate env certObj reasonCode skipBlockKey).2 →
      req.skipBlockKey = skipBlockKey := by
  intro req hreq
  simp only [revokeCertificate] at hreq
  repeat' split at hreq
  all_goals simp_all

theorem revokeCertificate_ok_raRevoke (env : Env) (certObj : Certificate)
    (reasonCode : Int) (skipBlockKey : Bool) :
    (revokeCertificate env certObj reasonCode skipBlockKey).1 = .ok () →
    ∃ req, Effect.raRevoke req ∈ (revokeCertificate env certObj reasonCode skipBlockKey).2 ∧
      req.skipBlockKey = skipBlockKey := by
  intro hok
  simp only [revokeCertificate] at hok ⊢
  repeat' split at hok
  all_goals simp_all
  all_goals rw [if_neg (by omega)]
  all_goals exact ⟨_, List.mem_cons_of_mem _ (List.mem_cons_self _ _), rfl⟩

theorem revokeBySerial_no_blockKey (env : Env) (serial : String)
    (reasonCode : Int) (skipBlockKey : Bool) :
    ∀ e ∈ (revokeBySerial env serial reasonCode skipBlockKey).2,
      e.isAddBlockedKey = false := by
  intro e he
  simp only [revokeBySerial] at he
  split at he
  · simp at he; subst he; rfl
  · simp at he; subst he; rfl
  · simp only [List.mem_cons] at he
    rcases he with rfl | he
    · rfl
    · exact revokeCertificate_no_blockKey env _ reasonCode skipBlockKey e he

theorem revokeBySerial_skip (env : Env) (serial : String)
    (reasonCode : Int) (skipBlockKey : Bool) :
    ∀ req, Effect.raRevoke req ∈ (revokeBySerial env serial reasonCode skipBlockKey).2 →
      req.skipBlockKey = skipBlockKey := by
  intro req hreq
  simp only [revokeBySerial] at hreq
  split at hreq
  · simp at hreq
  · simp at hreq
  · simp only [List.mem_cons] at hreq
    rcases hreq with h | hreq
    · exact absurd h (by simp)
    · exact revokeCertificate_skip env _ reasonCode skipBlockKey req hreq

theorem revokeBySerial_ok_raRevoke (env : Env) (serial : String)
    (reasonCode : Int) (skipBlockKey : Bool) :
    (revokeBySerial env serial reasonCode skipBlockKey).1 = .ok () →
    ∃ req, Effect.raRevoke req ∈ (revokeBySerial env serial reasonCode skipBlockKey).2 ∧
      req.skipBlockKey = skipBlockKey := by
  intro hok
  simp only [revokeBySerial] at hok ⊢
  split at hok
  · simp at hok
  · simp at hok
  · simp only at hok
    obtain ⟨req, hmem, hskip⟩ :=
      revokeCertificate_ok_raRevoke env _ reasonCode skipBlockKey hok
    exact ⟨req, by simp only [List.mem_cons]; exact Or.inr hmem, hskip⟩

theorem revokeMatchesLoop_no_blockKey (env : Env) (reasonCode : Int) (total : Nat) :
    ∀ (ms : List String) (i : Nat),
      ∀ e ∈ (revokeMatchesLoop env reasonCode total i ms).2, e.isAddBlockedKey = false := by
  intro ms
  induction ms with
  | nil => intro i e he; simp [revokeMatchesLoop] at he
  | cons m rest ih =>
    intro i e he
    simp only [revokeMatchesLoop] at he
    split at he
    · simp only [List.mem_append] at he
      rcases he with he | he
      · exact revokeBySerial_no_blockKey env m reasonCode true e he
      · exact ih (i + 1) e he
    · exact revokeBySerial_no_blockKey env m reasonCode true e he
    · exact revokeBySerial_no_blockKey env m reasonCode true e he
    · exact revokeBySerial_no_blockKey env m reasonCode true e he

theorem revokeMatchesLoop_skip (env : Env) (reasonCode : Int) (total : Nat) :
    ∀ (ms : List String) (i : Nat),
      ∀ req, Effect.raRevoke req ∈ (revokeMatchesLoop env reasonCode total i ms).2 →
        req.skipBlockKey = true := by
  intro ms
  induction ms with
  | nil => intro i req hreq; simp [revokeMatchesLoop] at hreq
  | cons m rest ih =>
    intro i req hreq
    simp only [revokeMatchesLoop] at hreq
    split at hreq
    · simp only [List.mem_append] at hreq
      rcases hreq with h | h
      · exact revokeBySerial_skip env m reasonCode true req h
      · exact ih (i + 1) req h
    · exact revokeBySerial_skip env m reasonCode true req hreq
    · exact revokeBySerial_skip env m reasonCode true req hreq
    · exact revokeBySerial_skip env m reasonCode true req hreq

theorem revokeMatchesLoop_ok (env : Env) (reasonCode : Int) (total : Nat) :
    ∀ (ms : List String) (i : Nat),
      (∀ s ∈ ms, (revokeBySerial env s reasonCode true).1 = .ok ()) →
      revokeMatchesLoop env reasonCode total i ms
        = (.ok (), ms.flatMap fun s => (revokeBySerial env s reasonCode true).2) := by
  intro ms
  induction ms with
  | nil => intro i _; simp [revokeMatchesLoop]
  | cons m rest ih =>
    intro i hall
    have hm := hall m (List.mem_cons_self m rest)
    have hrest : ∀ s ∈ rest, (revokeBySerial env s reasonCode true).1 = .ok () :=
      fun s hs => hall s (List.mem_cons_of_mem m hs)
    simp only [revokeMatchesLoop]
    split
    · rw [ih (i + 1) hrest]; simp
    · simp_all
    · simp_all
    · simp_all

theorem revokeMatchesLoop_fail (env : Env) (reasonCode : Int) (total : Nat) :
    ∀ (ms : List String) (i j : Nat) (hj : j < ms.length) (e : GoErr) (fxj : List Effect),
      (∀ j' (hj' : j' < j),
        (revokeBySerial env (ms.get ⟨j', Nat.lt_trans hj' hj⟩) reasonCode true).1 = .ok ()) →
      revokeBySerial env (ms.get ⟨j, hj⟩) reasonCode true = (.err e, fxj) →
      revokeMatchesLoop env reasonCode total i ms
        = (.err (.entryFailed (ms.get ⟨j, hj⟩) (i + j + 1) total e),
           ((ms.take j).flatMap fun s => (revokeBySerial env s reasonCode true).2) ++ fxj) := by
  intro ms
  induction ms with
  | nil => intro i j hj; exact absurd hj (by simp)
  | cons m rest ih =>
    intro i j hj e fxj hpre hfail
    cases j with
    | zero =>
      simp only [List.get] at hfail
      simp only [revokeMatchesLoop, hfail]
      simp
    | succ j' =>
      have h0 : (revokeBySerial env m reasonCode true).1 = .ok () := by
        have := hpre 0 (Nat.succ_pos j')
        simpa using this
      have hj' : j' < rest.length := Nat.lt_of_succ_lt_succ hj
      have hpre' : ∀ j'' (hj'' : j'' < j'),
          (revokeBySerial env (rest.get ⟨j'', Nat.lt_trans hj'' hj'⟩) reasonCode true).1
            = .ok () := by
        intro j'' hj''
        have := hpre (j'' + 1) (Nat.succ_lt_succ hj'')
        simpa using this
      have hfail' : revokeBySerial env (rest.get ⟨j', hj'⟩) reasonCode true = (.err e, fxj) := by
        simpa using hfail
      simp only [revokeMatchesLoop]
      split
      · rw [ih (i + 1) j' hj' e fxj hpre' hfail']
        simp only [List.get_cons_succ, List.take_succ_cons, List.flatMap_cons,
          List.append_assoc]
        have harith : i + 1 + j' + 1 = i + (j' + 1) + 1 := by omega
        rw [harith]
      · simp_all
      · simp_all
      · simp_all

theorem revokeByPrivateKey_no_blockKey (env : Env) (k : PrivKey) (r : Int) :
    ∀ e ∈ (revokeByPrivateKey env k r).2, e.isAddBlockedKey = false := by
  intro e he
  simp only [revokeByPrivateKey, getCertsMatchingSPKIHash] at he
  repeat' split at he
  all_goals
    simp only [List.mem_append, List.mem_cons, List.mem_singleton,
      List.not_mem_nil, or_false, false_or, or_assoc] at he
  all_goals
    first
      | exact he.elim
      | (subst he; rfl)
      | (rcases he with rfl | rfl <;> rfl)
      | (rcases he with rfl | rfl | rfl <;> rfl)
      | (rcases he with rfl | rfl | rfl | he
         · rfl
         · rfl
         · rfl
         · exact revokeMatchesLoop_no_blockKey env r _ _ 0 e he)

theorem revokeByPrivateKey_skip (env : Env) (k : PrivKey) (r : Int) :
    ∀ req, Effect.raRevoke req ∈ (revokeByPrivateKey env k r).2 →
      req.skipBlockKey = true := by
  intro req hreq
  simp only [revokeByPrivateKey, getCertsMatchingSPKIHash] at hreq
  repeat' split at hreq
  all_goals
    simp only [List.mem_append, List.mem_cons, List.mem_singleton,
      List.not_mem_nil, or_false, false_or, or_assoc] at hreq
  all_goals
    first
      | exact hreq.elim
      | exact revokeMatchesLoop_skip env r _ _ 0 req hreq
      | (simp at hreq; done)
      | (rcases hreq with h | h | h | hreq
         · exact absurd h (by simp)
         · exact absurd h (by simp)
         · exact absurd h (by simp)
         · exact revokeMatchesLoop_skip env r _ _ 0 req hreq)

theorem revokeByPrivateKey_ok_eq (env : Env) (k : PrivKey) (h : List Nat)
    (ms : List String)
    (hv : env.verifyPrivateKey k = .ok ())
    (hh : getPublicKeySPKIHash env.crypto k.pub = .ok h)
    (hm : env.selectSerialsByKeyHash h = .found ms)
    (hall : ∀ s ∈ ms, (revokeBySerial env s 1 true).1 = .ok ()) :
    revokeByPrivateKey env k 1
      = (.ok (), keyRevokeHeader k h ++ ms.flatMap (revokeItemTrace env)) := by
  simp only [revokeByPrivateKey, getCertsMatchingSPKIHash, hv, hh, hm]
  rw [revokeMatchesLoop_ok env 1 ms.length ms 0 hall]
  rfl

theorem revokeByPrivateKey_fail_eq (env : Env) (k : PrivKey) (h : List Nat)
    (ms : List String) (j : Nat) (e : GoErr) (fxj : List Effect)
    (hv : env.verifyPrivateKey k = .ok ())
    (hh : getPublicKeySPKIHash env.crypto k.pub = .ok h)
    (hm : env.selectSerialsByKeyHash h = .found ms)
    (hj : j < ms.length)
    (hpre : ∀ j' (hj' : j' < j),
      (revokeBySerial env (ms.get ⟨j', Nat.lt_trans hj' hj⟩) 1 true).1 = .ok ())
    (hfail : revokeBySerial env (ms.get ⟨j, hj⟩) 1 true = (.err e, fxj)) :
    revokeByPrivateKey env k 1
      = (.err (.entryFailed (ms.get ⟨j, hj⟩) (j + 1) ms.length e),
         keyRevokeHeader k h ++ (ms.take j).flatMap (revokeItemTrace env) ++ fxj) := by
  simp only [revokeByPrivateKey, getCertsMatchingSPKIHash, hv, hh, hm]
  rw [revokeMatchesLoop_fail env 1 ms.length ms 0 j hj e fxj hpre hfail]
  simp only [Nat.zero_add]
  rfl

theorem runBatchItems_no_err (env : Env) (r : Int) :
    ∀ (ls : List String) (e : GoErr), (runBatchItems env r ls).1 ≠ .err e := by
  intro ls
  induction ls with
  | nil => intro e; simp [runBatchItems]
  | cons s rest ih =>
    intro e
    simp only [runBatchItems]
    split
    · exact ih e
    · split
      · exact ih e
      · exact ih e
      · simp
      · simp

theorem runBatchItems_normal (env : Env) (r : Int) :
    ∀ (ls : List String),
      (∀ s ∈ ls, s ≠ "" → ((revokeBySerial env s r false).1).normal = true) →
      runBatchItems env r ls = (.ok (), ls.flatMap (batchItemTrace env r)) := by
  intro ls
  induction ls with
  | nil => intro _; simp [runBatchItems]
  | cons s rest ih =>
    intro hall
    have hrest : ∀ s' ∈ rest, s' ≠ "" → ((revokeBySerial env s' r false).1).normal = true :=
      fun s' hs' => hall s' (List.mem_cons_of_mem s hs')
    simp only [runBatchItems]
    split
    · rename_i hblank
      rw [ih hrest]
      simp [batchItemTrace, hblank]
    · rename_i hblank
      have hnorm := hall s (List.mem_cons_self s rest) hblank
      split
      · rename_i hok
        rw [ih hrest]
        simp only [List.flatMap_cons, batchItemTrace, if_neg hblank, hok]
        try simp
      · rename_i herr
        rw [ih hrest]
        simp only [List.flatMap_cons, batchItemTrace, if_neg hblank, herr]
        try simp
      · rename_i hpanic
        rw [hpanic] at hnorm
        simp [Outcome.normal] at hnorm
      · rename_i hfail
        rw [hfail] at hnorm
        simp [Outcome.normal] at hnorm

/-- C5: for every reason code r with r < 0, r = 7, or r > 10,
revokeCertificate aborts via a panic with an empty effect trace (hence
before calling the revocation client), regardless of the certificate
reference and the skipBlockKey flag; for r inside the allowed domain the
call never panics. -/
theorem C5_revokeCertificate_reason_panic (env : Env) (certObj : Certificate)
    (reasonCode : Int) (skipBlockKey : Bool) :
    ((reasonCode < 0 ∨ reasonCode = 7 ∨ reasonCode > 10) →
      revokeCertificate env certObj reasonCode skipBlockKey
        = (.panic ("Invalid reason code: " ++ toString reasonCode), [])) ∧
    (¬(reasonCode < 0 ∨ reasonCode = 7 ∨ reasonCode > 10) →
      ∀ m, (revokeCertificate env certObj reasonCode skipBlockKey).1 ≠ .panic m) := by
  constructor
  · intro hbad
    simp only [revokeCertificate, if_pos hbad]
  · intro hgood m
    simp only [revokeCertificate, if_neg hgood]
    repeat' split
    all_goals simp

/-- Witness for C5: reason code 7 panics with no effects; reason code 1
does not panic. -/
theorem C5_revokeCertificate_reason_panic_witness :
    revokeCertificate testEnv ⟨none, "s1"⟩ 7 false
      = (.panic ("Invalid reason code: " ++ toString (7 : Int)), []) ∧
    (revokeCertificate testEnv ⟨none, "s1"⟩ 1 false).1
      ≠ .panic ("Invalid reason code: " ++ toString (1 : Int)) :=
  ⟨(C5_revokeCertificate_reason_panic testEnv ⟨none, "s1"⟩ 7 false).1 (by decide),
   (C5_revokeCertificate_reason_panic testEnv ⟨none, "s1"⟩ 1 false).2 (by decide) _⟩

/-- C7: for every reason code other than 1, blockByPrivateKey and
revokeByPrivateKey return the invalid-reason error with an empty effect
trace: no key verification, no fingerprinting, no datastore query, no
blocked-key insert and no revocation happens. -/
theorem C7_keyCompromise_reason_gate (env : Env) (k : PrivKey) (r : Int)
    (hr : r ≠ 1) :
    blockByPrivateKey env k r = (.err (.invalidReasonMustBe1 r), []) ∧
    revokeByPrivateKey env k r = (.err (.invalidReasonMustBe1 r), []) := by
  constructor
  · simp [blockByPrivateKey, hr]
  · simp [revokeByPrivateKey, hr]

/-- Witness for C7 at reason code 5. -/
theorem C7_keyCompromise_reason_gate_witness :
    blockByPrivateKey testEnv ⟨⟨7⟩, 7⟩ 5 = (.err (.invalidReasonMustBe1 5), []) ∧
    revokeByPrivateKey testEnv ⟨⟨7⟩, 7⟩ 5 = (.err (.invalidReasonMustBe1 5), []) :=
  ⟨(C7_keyCompromise_reason_gate testEnv ⟨⟨7⟩, 7⟩ 5 (by decide)).1,
   (C7_keyCompromise_reason_gate testEnv ⟨⟨7⟩, 7⟩ 5 (by decide)).2⟩

/-- C9: getPublicKeySPKIHash is the SHA-256 digest of the DER-encoded
SubjectPublicKeyInfo; any two public keys with equal encoded bytes produce
equal hashes; encoding failure is the only error path. -/
theorem C9_getPublicKeySPKIHash_spec (C : Crypto) (p₁ p₂ : PubKey) (b : List Nat) :
    (C.marshalPKIXPublicKey p₁ = .ok b →
      getPublicKeySPKIHash C p₁ = .ok (C.sha256 b)) ∧
    (C.marshalPKIXPublicKey p₁ = C.marshalPKIXPublicKey p₂ →
      getPublicKeySPKIHash C p₁ = getPublicKeySPKIHash C p₂) ∧
    (∀ e, getPublicKeySPKIHash C p₁ = .error e ↔ C.marshalPKIXPublicKey p₁ = .error e) := by
  refine ⟨?_, ?_, ?_⟩
  · intro hb; simp [getPublicKeySPKIHash, hb]
  · intro heq; simp only [getPublicKeySPKIHash, heq]
  · intro e
    constructor
    · intro h
      simp only [getPublicKeySPKIHash] at h
      split at h
      · rename_i e' he'
        injection h with h
        subst h; exact he'
      · cases h
    · intro h; simp [getPublicKeySPKIHash, h]

/-- Witness for C9: a concrete key whose encoding succeeds hashes to the
digest of its encoded bytes. -/
theorem C9_getPublicKeySPKIHash_spec_witness :
    Crypto.marshalPKIXPublicKey testCrypto ⟨7⟩ = .ok [7] ∧
    getPublicKeySPKIHash testCrypto ⟨7⟩ = .ok (testCrypto.sha256 [7]) :=
  ⟨rfl, (C9_getPublicKeySPKIHash_spec testCrypto ⟨7⟩ ⟨7⟩ [7]).1 rfl⟩

/-- C8: loadPrivateKey fails when no PEM block decodes; otherwise it tries
PKCS #1, then PKCS #8 (accepting only RSA or ECDSA results), then SEC 1,
returning the first success and a distinct cannot-parse error when all
three fail; only the first PEM block is considered. -/
theorem C8_loadPrivateKey_spec (C : Crypto) (input alt : List Nat)
    (block : PemBlock) (rest : List Nat) :
    (C.pemDecode input = none → loadPrivateKey C input = .error .noPEMBlock) ∧
    (C.pemDecode input = some (block, rest) →
      (∀ k, C.parsePKCS1 block.bytes = some k → loadPrivateKey C input = .ok (.rsa k)) ∧
      (C.parsePKCS1 block.bytes = none →
        (∀ k, C.parsePKCS8 block.bytes = some (.rsa k) →
          loadPrivateKey C input = .ok (.rsa k)) ∧
        (∀ k, C.parsePKCS8 block.bytes = some (.ecdsa k) →
          loadPrivateKey C input = .ok (.ec k)) ∧
        ((C.parsePKCS8 block.bytes = none ∨ C.parsePKCS8 block.bytes = some .other) →
          (∀ k, C.parseEC block.bytes = some k → loadPrivateKey C input = .ok (.ec k)) ∧
          (C.parseEC block.bytes = none →
            loadPrivateKey C input = .error .cannotParseKey)))) ∧
    GoErr.cannotParseKey ≠ GoErr.noPEMBlock ∧
    ((C.pemDecode input).map Prod.fst = (C.pemDecode alt).map Prod.fst →
      loadPrivateKey C input = loadPrivateKey C alt) := by
  refine ⟨?_, ?_, by simp, ?_⟩
  · intro hnone; simp [loadPrivateKey, hnone]
  · intro hdec
    refine ⟨?_, ?_⟩
    · intro k hk; simp [loadPrivateKey, hdec, hk]
    · intro h1
      refine ⟨?_, ?_, ?_⟩
      · intro k hk; simp [loadPrivateKey, hdec, h1, hk]
      · intro k hk; simp [loadPrivateKey, hdec, h1, hk]
      · intro h8
        refine ⟨?_, ?_⟩
        · intro k hk
          rcases h8 with h8 | h8 <;> simp [loadPrivateKey, hdec, h1, h8, hk]
        · intro hec
          rcases h8 with h8 | h8 <;> simp [loadPrivateKey, hdec, h1, h8, hec]
  · intro hfst
    rcases hi : C.pemDecode input with _ | ⟨bi, ri⟩ <;>
      rcases ha : C.pemDecode alt with _ | ⟨ba, ra⟩ <;>
        rw [hi, ha] at hfst <;> simp at hfst
    · simp [loadPrivateKey, hi, ha]
    · simp [loadPrivateKey, hi, ha, hfst]

/-- Witness for C8: a PKCS #1 input parses as RSA; an input that defeats
all three parsers gives the cannot-parse error. -/
theorem C8_loadPrivateKey_spec_witness :
    loadPrivateKey testCrypto [1] = .ok (.rsa ⟨⟨10⟩, 1⟩) ∧
    loadPrivateKey testCrypto [9] = .error .cannotParseKey :=
  ⟨((C8_loadPrivateKey_spec testCrypto [1] [] ⟨[1]⟩ []).2.1 rfl).1 ⟨⟨10⟩, 1⟩ rfl,
   ((((C8_loadPrivateKey_spec testCrypto [9] [] ⟨[9]⟩ []).2.1 rfl).2 rfl).2.2
      (Or.inl rfl)).2 rfl⟩

/-- C6: for every verified private key with reason code 1 and a resolved
operator, blockByPrivateKey performs exactly one blocked-key insert whose
request carries the SPKI hash of the key's public half, the current clock
time, the fixed source label "admin-revoker", the comment "blocked by"
followed by the operator, and revoked-by 0; it revokes no certificate. -/
theorem C6_blockByPrivateKey_spec (env : Env) (k : PrivKey) (u : User)
    (h : List Nat)
    (hv : env.verifyPrivateKey k = .ok ())
    (hh : getPublicKeySPKIHash env.crypto k.pub = .ok h)
    (hu : env.userCurrent = .ok u) :
    (blockByPrivateKey env k 1).2
      = [.verifyKey k, .fingerprint k.pub, .userLookup,
         .addBlockedKey { keyHash := h, added := env.clkNow, source := "admin-revoker",
                          comment := "blocked by " ++ u.render, revokedBy := 0 }] ∧
    ((blockByPrivateKey env k 1).2.countP Effect.isAddBlockedKey) = 1 ∧
    (∀ req, Effect.raRevoke req ∉ (blockByPrivateKey env k 1).2) := by
  have htrace : (blockByPrivateKey env k 1).2
      = [.verifyKey k, .fingerprint k.pub, .userLookup,
         .addBlockedKey { keyHash := h, added := env.clkNow, source := "admin-revoker",
                          comment := "blocked by " ++ u.render, revokedBy := 0 }] := by
    simp only [blockByPrivateKey, hv, hh, hu]
    rw [if_neg (by omega)]
    split <;> rfl
  refine ⟨htrace, ?_, ?_⟩
  · rw [htrace]; rfl
  · intro req; rw [htrace]; simp

/-- Witness for C6 at a concrete verified key in the test environment. -/
theorem C6_blockByPrivateKey_spec_witness :
    (blockByPrivateKey testEnv ⟨⟨7⟩, 7⟩ 1).2
      = [.verifyKey ⟨⟨7⟩, 7⟩, .fingerprint ⟨7⟩, .userLookup,
         .addBlockedKey { keyHash := [99, 7], added := 1000, source := "admin-revoker",
                          comment := "blocked by " ++ "alice-struct", revokedBy := 0 }] :=
  (C6_blockByPrivateKey_spec testEnv ⟨⟨7⟩, 7⟩ ⟨"alice", "alice-struct"⟩ [99, 7]
    rfl rfl rfl).1

/-- C1: revokeByPrivateKey never inserts a blocked-key entry; every RA
revocation it issues has skipBlockKey true; when all matched serials revoke
cleanly it revokes each of them; the first per-item failure aborts the call
with an error naming the failing serial's ordinal out of the total, and the
effect trace stops with the failing item (no later serial is touched). -/
theorem C1_revokeByPrivateKey_spec (env : Env) (k : PrivKey) :
    (∀ r, ∀ e ∈ (revokeByPrivateKey env k r).2, e.isAddBlockedKey = false) ∧
    (∀ r req, Effect.raRevoke req ∈ (revokeByPrivateKey env k r).2 →
      req.skipBlockKey = true) ∧
    (∀ h ms, env.verifyPrivateKey k = .ok () →
      getPublicKeySPKIHash env.crypto k.pub = .ok h →
      env.selectSerialsByKeyHash h = .found ms →
      ((∀ s ∈ ms, (revokeBySerial env s 1 true).1 = .ok ()) →
        revokeByPrivateKey env k 1
          = (.ok (), keyRevokeHeader k h ++ ms.flatMap (revokeItemTrace env)) ∧
        ∀ s ∈ ms, ∃ req, Effect.raRevoke req ∈ revokeItemTrace env s ∧
          req.skipBlockKey = true) ∧
      (∀ j (hj : j < ms.length) e fxj,
        (∀ j' (hj' : j' < j),
          (revokeBySerial env (ms.get ⟨j', Nat.lt_trans hj' hj⟩) 1 true).1 = .ok ()) →
        revokeBySerial env (ms.get ⟨j, hj⟩) 1 true = (.err e, fxj) →
        revokeByPrivateKey env k 1
          = (.err (.entryFailed (ms.get ⟨j, hj⟩) (j + 1) ms.length e),
             keyRevokeHeader k h ++ (ms.take j).flatMap (revokeItemTrace env) ++ fxj))) := by
  refine ⟨fun r => revokeByPrivateKey_no_blockKey env k r,
          fun r => revokeByPrivateKey_skip env k r, ?_⟩
  intro h ms hv hh hm
  constructor
  · intro hall
    refine ⟨revokeByPrivateKey_ok_eq env k h ms hv hh hm hall, ?_⟩
    intro s hs
    exact revokeBySerial_ok_raRevoke env s 1 true (hall s hs)
  · intro j hj e fxj hpre hfail
    exact revokeByPrivateKey_fail_eq env k h ms j e fxj hv hh hm hj hpre hfail

/-- Witness for C1: in the test environment the two matched serials both
revoke, so the whole call succeeds with the expected trace. -/
theorem C1_revokeByPrivateKey_spec_witness :
    revokeByPrivateKey testEnv ⟨⟨7⟩, 7⟩ 1
      = (.ok (), keyRevokeHeader ⟨⟨7⟩, 7⟩ [99, 7]
          ++ ["s1", "s2"].flatMap (revokeItemTrace testEnv)) :=
  (((C1_revokeByPrivateKey_spec testEnv ⟨⟨7⟩, 7⟩).2.2 [99, 7] ["s1", "s2"]
      rfl rfl rfl).1 (by decide)).1

/-- C2: revokeBySerialBatch returns the file-open error verbatim when the
file cannot be opened; when the file opens and every non-blank line's
revocation attempt returns normally (with a value or an error), the batch
returns success, every line is processed in order, and each per-item
failure only adds a log line; an error outcome of the batch can only be a
file-open error. -/
theorem C2_revokeBySerialBatch_spec (env : Env) (serialPath : String)
    (reasonCode : Int) (parallelism : Nat) :
    (∀ e, env.openFile serialPath = .error e →
      revokeBySerialBatch env serialPath reasonCode parallelism
        = (.err e, [.openFile serialPath])) ∧
    (∀ lines, env.openFile serialPath = .ok lines →
      (∀ s ∈ lines, s ≠ "" → ((revokeBySerial env s reasonCode false).1).normal = true) →
      revokeBySerialBatch env serialPath reasonCode parallelism
        = (.ok (), .openFile serialPath :: lines.flatMap (batchItemTrace env reasonCode))) ∧
    (∀ e, (revokeBySerialBatch env serialPath reasonCode parallelism).1 = .err e →
      env.openFile serialPath = .error e) := by
  refine ⟨?_, ?_, ?_⟩
  · intro e he; simp [revokeBySerialBatch, he]
  · intro lines hl hnorm
    simp only [revokeBySerialBatch, hl]
    rw [runBatchItems_normal env reasonCode lines hnorm]
  · intro e he
    rcases hof : env.openFile serialPath with e' | lines
    · simp only [revokeBySerialBatch, hof] at he
      injection he with he
      subst he; rfl
    · simp only [revokeBySerialBatch, hof] at he
      split at he
      · cases he
      · rename_i e'' heq
        exact absurd heq (runBatchItems_no_err env reasonCode lines e'')
      · cases he
      · cases he

/-- Witness for C2: a file with two good serials, a blank line, and a
serial that fails to revoke still yields a success outcome. -/
theorem C2_revokeBySerialBatch_spec_witness :
    revokeBySerialBatch testEnv "serials.txt" 0 2
      = (.ok (), .openFile "serials.txt"
          :: ["s1", "", "missing", "s2"].flatMap (batchItemTrace testEnv 0)) :=
  (C2_revokeBySerialBatch_spec testEnv "serials.txt" 0 2).2.1
    ["s1", "", "missing", "s2"] rfl (by decide)

/-- C3: privateKeyBlock in dry-run mode performs zero mutations on every
path; an already-blocked hash is a hard stop through cmd.Fail rather than a
count report; otherwise it reports the would-be-affected count and returns
without error. -/
theorem C3_privateKeyBlock_dryRun (env : Env) (count : Int) (spkiHash : List Nat)
    (k : PrivKey) :
    (∀ e ∈ (privateKeyBlock env true count spkiHash k).2, e.isMutation = false) ∧
    (∀ c, env.selectBlockedKeyCount spkiHash = .ok c → c > 0 →
      privateKeyBlock env true count spkiHash k
        = (.fail "The provided key already exists in the blockedKeys table",
           [.queryBlockedCount spkiHash])) ∧
    (∀ c, env.selectBlockedKeyCount spkiHash = .ok c → ¬c > 0 →
      privateKeyBlock env true count spkiHash k
        = (.ok (), [.queryBlockedCount spkiHash,
            .auditInfo ("To block issuance for this key and revoke " ++ toString count
              ++ " certificates via bad-key-revoker, run with -dry-run=false"),
            .auditInfo "No keys were blocked or certificates revoked, exiting..."])) := by
  refine ⟨?_, ?_, ?_⟩
  · simp only [privateKeyBlock, spkiHashInBlockedKeys]
    repeat' split
    all_goals try simp [List.forall_mem_cons, Effect.isMutation]
    all_goals exact absurd trivial (by assumption)
  · intro c hc hpos
    simp [privateKeyBlock, spkiHashInBlockedKeys, hc, hpos]
  · intro c hc hneg
    simp [privateKeyBlock, spkiHashInBlockedKeys, hc, hneg]

/-- Witness for C3: an already-blocked hash is refused; an unblocked hash
only gets the count report. -/
theorem C3_privateKeyBlock_dryRun_witness :
    privateKeyBlock testEnv true 2 [99, 7] ⟨⟨7⟩, 7⟩
      = (.fail "The provided key already exists in the blockedKeys table",
         [.queryBlockedCount [99, 7]]) ∧
    privateKeyBlock testEnv true 2 [0] ⟨⟨7⟩, 7⟩
      = (.ok (), [.queryBlockedCount [0],
          .auditInfo ("To block issuance for this key and revoke " ++ toString (2 : Int)
            ++ " certificates via bad-key-revoker, run with -dry-run=false"),
          .auditInfo "No keys were blocked or certificates revoked, exiting..."]) :=
  ⟨(C3_privateKeyBlock_dryRun testEnv 2 [99, 7] ⟨⟨7⟩, 7⟩).2.1 1 rfl (by decide),
   (C3_privateKeyBlock_dryRun testEnv 2 [0] ⟨⟨7⟩, 7⟩).2.2 0 rfl (by decide)⟩

/-- C4: privateKeyRevoke in dry-run mode only logs the would-be count (no
mutation); live with count < 1 it does nothing and returns nil; live with
count >= 1 it runs revokeByPrivateKey first and blockByPrivateKey second,
and a revoke failure aborts with a wrapped error before any blocking. -/
theorem C4_privateKeyRevoke_spec (env : Env) (count : Int) (k : PrivKey) :
    (privateKeyRevoke env true count k
       = (.ok (), [.auditInfo ("To immediately revoke " ++ toString count
            ++ " certificates and block issuance for this key, run with -dry-run=false"),
          .auditInfo "No keys were blocked or certificates revoked, exiting..."]) ∧
     ∀ e ∈ (privateKeyRevoke env true count k).2, e.isMutation = false) ∧
    (count < 1 → privateKeyRevoke env false count k = (.ok (), [])) ∧
    (count ≥ 1 → ∀ e fx, revokeByPrivateKey env k 1 = (.err e, fx) →
      privateKeyRevoke env false count k
        = (.err (.wrapped "while attempting to revoke certificates for the provided key" e),
           .auditInfo ("Attempting to revoke " ++ toString count ++ " certificates") :: fx) ∧
      ∀ eff ∈ (privateKeyRevoke env false count k).2, eff.isAddBlockedKey = false) ∧
    (count ≥ 1 → ∀ rfx, revokeByPrivateKey env k 1 = (.ok (), rfx) →
      (∀ bfx, blockByPrivateKey env k 1 = (.ok (), bfx) →
        privateKeyRevoke env false count k
          = (.ok (), .auditInfo ("Attempting to revoke " ++ toString count ++ " certificates")
              :: rfx
              ++ ([.auditInfo "All certificates matching using the provided key have been successfully",
                   .auditInfo "Attempting to block issuance for the provided key"]
                  ++ (bfx
                      ++ [.auditInfo "All certificates have been successfully revoked and issuance blocked, exiting..."])))) ∧
      (∀ bfx e, blockByPrivateKey env k 1 = (.err e, bfx) →
        privateKeyRevoke env false count k
          = (.err (.wrapped "while attempting to block issuance for the provided key" e),
             .auditInfo ("Attempting to revoke " ++ toString count ++ " certificates")
              :: rfx
              ++ ([.auditInfo "All certificates matching using the provided key have been successfully",
                   .auditInfo "Attempting to block issuance for the provided key"]
                  ++ bfx)))) := by
  refine ⟨⟨?_, ?_⟩, ?_, ?_, ?_⟩
  · simp [privateKeyRevoke]
  · simp [privateKeyRevoke, List.forall_mem_cons, Effect.isMutation]
  · intro hcount
    have hnot : ¬count ≥ 1 := by omega
    simp [privateKeyRevoke, hnot]
  · intro hcount e fx hrev
    have hmain : privateKeyRevoke env false count k
        = (.err (.wrapped "while attempting to revoke certificates for the provided key" e),
           .auditInfo ("Attempting to revoke " ++ toString count ++ " certificates") :: fx) := by
      simp [privateKeyRevoke, hcount, hrev]
    refine ⟨hmain, ?_⟩
    intro eff heff
    rw [hmain] at heff
    simp only [List.mem_cons] at heff
    rcases heff with rfl | heff
    · rfl
    · have hfx : (revokeByPrivateKey env k 1).2 = fx := by rw [hrev]
      exact revokeByPrivateKey_no_blockKey env k 1 eff (by rw [hfx]; exact heff)
  · intro hcount rfx hrev
    constructor
    · intro bfx hblk
      simp [privateKeyRevoke, hcount, hrev, hblk]
    · intro bfx e hblk
      simp [privateKeyRevoke, hcount, hrev, hblk]

/-- Witness for C4: live mode with count 0 does nothing and returns nil. -/
theorem C4_privateKeyRevoke_spec_witness :
    privateKeyRevoke testEnv false 0 ⟨⟨7⟩, 7⟩ = (.ok (), []) :=
  (C4_privateKeyRevoke_spec testEnv 0 ⟨⟨7⟩, 7⟩).2.1 (by decide)

/-- C10: in main's private-key-block and private-key-revoke branches, a nil
error from the workflow function still flows into cmd.Fail(err.Error()),
which dereferences the nil error and panics, so the success path never
returns normally. -/
theorem C10_main_nil_error_deref (env : Env) (dryRun : Bool) (count : Int)
    (spkiHash : List Nat) (k : PrivKey) :
    ((privateKeyBlock env dryRun count spkiHash k).1 = .ok () →
      (mainPrivateKeyCommand env "private-key-block" dryRun count spkiHash k).1
        = .panic "runtime error: invalid memory address or nil pointer dereference") ∧
    ((privateKeyRevoke env dryRun count k).1 = .ok () →
      (mainPrivateKeyCommand env "private-key-revoke" dryRun count spkiHash k).1
        = .panic "runtime error: invalid memory address or nil pointer dereference") ∧
    (mainPrivateKeyCommand env "private-key-block" dryRun count spkiHash k).1 ≠ .ok () ∧
    (mainPrivateKeyCommand env "private-key-revoke" dryRun count spkiHash k).1 ≠ .ok () := by
  refine ⟨?_, ?_, ?_, ?_⟩
  · intro hok
    simp only [mainPrivateKeyCommand, if_true]
    split
    all_goals simp_all
  · intro hok
    simp only [mainPrivateKeyCommand, if_true]
    split
    all_goals simp_all
  · simp only [mainPrivateKeyCommand, if_true]
    split
    all_goals simp
  · simp only [mainPrivateKeyCommand, if_true]
    split
    all_goals split
    all_goals simp

/-- Witness for C10: a dry-run private-key-revoke succeeds in the workflow
function, and main then panics on the nil error. -/
theorem C10_main_nil_error_deref_witness :
    (privateKeyRevoke testEnv true 0 ⟨⟨7⟩, 7⟩).1 = .ok () ∧
    (mainPrivateKeyCommand testEnv "private-key-revoke" true 0 [99, 7] ⟨⟨7⟩, 7⟩).1
      = .panic "runtime error: invalid memory address or nil pointer dereference" :=
  ⟨by decide,
   (C10_main_nil_error_deref testEnv true 0 [99, 7] ⟨⟨7⟩, 7⟩).2.1 (by decide)⟩

end AdminRevoker
